import Mathlib

/-!
Verification of the VidFlow client core against its natural-language
specification.  The definitions below are shallow embeddings of the
JavaScript source files:

* `src/src/lib/api.js`          — the HTTP client adapter (`APIClient.request`)
* `src/src/hooks/useWebSocket.js` — the reconnecting progress socket hook
* `src/src/pages/WorkflowProgress.jsx` — the per-execution progress reconciler
* `src/unnamed/part_004` (WorkflowExecutionDetails) — the second reconciler
* `src/src/pages/WorkflowBuilder.jsx` — the workflow graph editor state

Machine integers do not occur (all counters are small naturals), strings are
modelled as Lean `String`, JS objects used as string-keyed maps are modelled
as association lists in insertion order, and JS `undefined` is modelled as
`Option.none`.
-/

namespace VFlow

/-! ## HTTP client adapter (`src/src/lib/api.js`)

`APIClient.request` runs a `while (attempt <= maxRetries)` loop around
`fetch`.  One `fetch` resolves to either a response (with an HTTP status,
a status text, and a body that may or may not be JSON carrying a `detail`
field) or a network-level rejection.  We model the behaviour of the network
as a function from the attempt number to such an outcome. -/

/-- Outcome of one `fetch` call, as `APIClient.request` observes it.
For a response that is not `ok`, `jsonDetail` models
`await response.json().catch(...)`: `none` means the body failed to parse as
JSON, `some none` means it parsed but had no `detail` field, and
`some (some d)` means it parsed with `detail` equal to `d`. -/
inductive FetchOutcome where
  | ok (payload : String)
  | httpError (status : Nat) (statusText : String) (jsonDetail : Option (Option String))
  | netError (message : String)
  deriving DecidableEq, Repr

/-- JavaScript `a || b` for a possibly-undefined string `a`: the fallback is
used when `a` is `undefined` or the empty string (both falsy). -/
def jsOr (a : Option String) (b : String) : String :=
  match a with
  | none => b
  | some s => if s == "" then b else s

/-- JavaScript `a || b` for a possibly-undefined number `a`: the fallback is
used when `a` is `undefined` or `0` (both falsy).  This models
`options.timeout || 10000` in `APIClient.request`. -/
def jsOrNat (a : Option Nat) (b : Nat) : Nat :=
  match a with
  | none => b
  | some n => if n == 0 then b else n

/-- Message of the `Error` thrown for one failed attempt, and the returned
payload for a successful one, exactly as in the body of the `try` block of
`APIClient.request`: a status in `[400, 500)` uses the server-supplied
`detail` with the `HTTP status: statusText` fallback, every other non-ok
status uses the fallback directly, and a network rejection keeps its own
message. -/
def attemptResult : FetchOutcome → Except String String
  | .ok payload => .ok payload
  | .httpError status statusText jsonDetail =>
      let fallback := "HTTP " ++ toString status ++ ": " ++ statusText
      if 400 ≤ status ∧ status < 500 then
        .error (jsOr (match jsonDetail with
                      | none => some statusText
                      | some d => d) fallback)
      else
        .error fallback
  | .netError message => .error message

/-- One backoff delay in milliseconds: the code sleeps
`1000 * Math.pow(2, attempt - 1)` after the failure of the attempt with
zero-based index `idx` (at that point `attempt = idx + 1`). -/
def backoffDelay (idx : Nat) : Nat := 1000 * 2 ^ idx

/-- The retry loop of `APIClient.request`, with the network modelled by
`b : Nat → FetchOutcome` (outcome of the attempt with that zero-based
index).  `remaining` counts the retries still allowed
(`maxRetries - attempt` in the source).  Returns the final result together
with the list of backoff delays performed, in order. -/
def requestLoop (b : Nat → FetchOutcome) (idx : Nat) :
    Nat → Except String String × List Nat
  | 0 =>
      match attemptResult (b idx) with
      | .ok v => (.ok v, [])
      | .error e => (.error e, [])
  | remaining + 1 =>
      match attemptResult (b idx) with
      | .ok v => (.ok v, [])
      | .error _ =>
          let rest := requestLoop b (idx + 1) remaining
          (rest.1, backoffDelay idx :: rest.2)

/-- `APIClient.request` with `options.retries = retries` (default `0`) run
against the network behaviour `b`.  The result is the value returned or the
message of the error finally thrown, paired with every backoff delay slept. -/
def request (retries : Nat) (b : Nat → FetchOutcome) :
    Except String String × List Nat :=
  requestLoop b 0 retries

/-- Delays performed by `k` consecutive retries: `1000 * 2 ^ i` for
`i = 0, …, k-1`. -/
def backoffs (k : Nat) : List Nat := (List.range k).map backoffDelay

/-- Truth value of `attemptResult` succeeding. -/
def FetchOutcome.isOkOutcome (o : FetchOutcome) : Bool :=
  match attemptResult o with
  | .ok _ => true
  | .error _ => false

/-- Payload of a successful outcome (junk `""` otherwise). -/
def FetchOutcome.payloadOf (o : FetchOutcome) : String :=
  match attemptResult o with
  | .ok v => v
  | .error _ => ""

/-- Error message of a failed outcome (junk `""` otherwise). -/
def FetchOutcome.errorOf (o : FetchOutcome) : String :=
  match attemptResult o with
  | .ok _ => ""
  | .error e => e

/-- Instrumented variant of the retry loop for the timeout analysis: the
network behaviour also gives each attempt a duration in milliseconds, and
the loop reports the total elapsed time (full fetch durations plus backoff
sleeps).  Since the abort-controller lines of `APIClient.request` are
commented out, every fetch is awaited to completion whatever its duration,
which is exactly what this translation does. -/
def requestTimedLoop (b : Nat → FetchOutcome × Nat) (idx : Nat) :
    Nat → Except String String × Nat
  | 0 =>
      match attemptResult (b idx).1 with
      | .ok v => (.ok v, (b idx).2)
      | .error e => (.error e, (b idx).2)
  | remaining + 1 =>
      match attemptResult (b idx).1 with
      | .ok v => (.ok v, (b idx).2)
      | .error _ =>
          let rest := requestTimedLoop b (idx + 1) remaining
          (rest.1, (b idx).2 + backoffDelay idx + rest.2)

/-- `APIClient.request` including the `timeout` option.  The source reads
`const timeout = options.timeout || 10000` but the `AbortController` /
`setTimeout(() => controller.abort(), timeout)` lines are commented out, so
the bound value is used only in log strings and never influences the
control flow. -/
def requestWithTimeout (timeoutOpt : Option Nat) (retries : Nat)
    (b : Nat → FetchOutcome × Nat) : Except String String × Nat :=
  let _timeout := jsOrNat timeoutOpt 10000
  requestTimedLoop b 0 retries

/-- Network behaviour used as the concrete retry scenario of the spec: the
first two attempts answer `503 Service Unavailable`, the third succeeds. -/
def behaviour503TwiceThenOk : Nat → FetchOutcome := fun i =>
  if i < 2 then .httpError 503 "Service Unavailable" none else .ok "payload"

/-- Network behaviour that always answers `503 Service Unavailable`. -/
def behaviourAlways503 : Nat → FetchOutcome := fun _ =>
  .httpError 503 "Service Unavailable" none

/-- Network behaviour that always answers `404 Not Found` with JSON body
whose `detail` field is `not found`. -/
def behaviourAlways404 : Nat → FetchOutcome := fun _ =>
  .httpError 404 "Not Found" (some (some "not found"))

/-! ## JavaScript objects used as string-keyed maps

A JS object literal holds string keys in insertion order; `{ ...prev,
[key]: value }` keeps every other key where it was and writes `key` in
place if present, appending it otherwise.  We model such objects as
association lists. -/

/-- Spread-update `\x7b ...m, [k]: v \x7d` of a JS object: overwrite the
existing entry for `k` in place, or append it. -/
def jsObjSet {α : Type} (m : List (String × α)) (k : String) (v : α) :
    List (String × α) :=
  if m.any (fun p => p.1 == k) then
    m.map (fun p => if p.1 == k then (k, v) else p)
  else
    m ++ [(k, v)]

/-- Property read `m[k]` of a JS object: `none` models `undefined`. -/
def jsObjGet {α : Type} (m : List (String × α)) (k : String) : Option α :=
  (m.find? (fun p => p.1 == k)).map (fun p => p.2)

/-- Property key coercion: a computed key `[data.download_id]` coerces
`undefined` to the string `undefined`. -/
def jsKey (k : Option String) : String := k.getD "undefined"

/-! ## Reconnecting event-stream hook (`src/src/hooks/useWebSocket.js`) -/

/-- Entry the hook stores under `progress[data.download_id]` on each frame
(lines 29–38): the frame's own fields plus a receipt timestamp. -/
structure ProgressEntry where
  downloadId : Option String
  progress : Option Nat
  status : Option String
  message : Option String
  timestamp : Nat
  deriving DecidableEq, Repr

/-- Decoded JSON frame as the hook reads it.  Every field access on a JS
object may yield `undefined`, hence the `Option`s; the `type` field is
present in workflow frames but never read by this handler. -/
structure WsFrame where
  type : Option String
  downloadId : Option String
  progress : Option Nat
  status : Option String
  message : Option String
  deriving DecidableEq, Repr

/-- Handler `ws.onmessage` of `useWebSocket` (lines 24–42) on a frame whose
payload parsed as JSON, at receipt time `now` (`Date.now()`): upsert the
progress map under the frame's `download_id`. -/
def wsOnMessage (prev : List (String × ProgressEntry)) (frame : WsFrame)
    (now : Nat) : List (String × ProgressEntry) :=
  jsObjSet prev (jsKey frame.downloadId)
    { downloadId := frame.downloadId
      progress := frame.progress
      status := frame.status
      message := frame.message
      timestamp := now }

/-- Hook accessor `getProgress(downloadId)` (lines 82–84):
`progress[downloadId] || null`. -/
def getProgress (m : List (String × ProgressEntry)) (k : String) :
    Option ProgressEntry :=
  jsObjGet m k

/-- Hook accessor `clearProgress(downloadId)` (lines 86–92): copy the map and
`delete` the key. -/
def clearProgress (m : List (String × ProgressEntry)) (k : String) :
    List (String × ProgressEntry) :=
  m.filter (fun p => p.1 != k)

/-- Names of the fields of the object `useWebSocket` returns (lines 94–99 of
the hook).  JS destructuring of any other name from this object yields
`undefined`. -/
def useWebSocketReturnFields : List String :=
  ["isConnected", "progress", "getProgress", "clearProgress"]

/-! ## Execution progress reconcilers

`WorkflowProgress.jsx` and `WorkflowExecutionDetails` (part_004) both
consume the shared workflow event stream.  Wire frames are
`\x7btype, data\x7d`; the variants below carry the `data` fields each
handler reads.  `execId` is `data.execution_id`, possibly absent. -/

/-- Per-video progress entry as both pages store it (snapshot
`video_progress` / `scanned_videos` elements, later mutated by events). -/
structure VideoEntry where
  title : String
  thumbnailUrl : Option String
  status : Option String
  currentStage : Option String
  stages : Option (List (String × String))
  error : Option String
  deriving DecidableEq, Repr

/-- Workflow stream event, by its `type` field.  `otherType` stands for any
frame whose `type` matches no case of either handler. -/
inductive WsMsg where
  | log (execId : Option Nat) (timestamp : String) (message : String)
  | videosScanned (execId : Option Nat) (videos : List VideoEntry)
  | videoStarted (execId : Option Nat) (videoIndex : Nat)
  | videoStageUpdate (execId : Option Nat) (videoIndex : Nat) (stage : String) (status : String)
  | videoCompleted (execId : Option Nat) (videoIndex : Nat)
  | videoFailed (execId : Option Nat) (videoIndex : Nat) (error : String)
  | workflowCompleted (execId : Option Nat)
  | workflowFailed (execId : Option Nat)
  | otherType
  deriving DecidableEq, Repr

/-- JavaScript `Array.prototype.map` where the callback also receives the
element's index, starting the count at `start`. -/
def mapFrom {α β : Type} (f : Nat → α → β) (start : Nat) : List α → List β
  | [] => []
  | v :: rest => f start v :: mapFrom f (start + 1) rest

/-- JavaScript `arr.map((v, idx) => ...)`. -/
def mapWithIndex {α β : Type} (f : Nat → α → β) (l : List α) : List β :=
  mapFrom f 0 l

/-- Update pattern of `WorkflowProgress.jsx`:
`prev.map((v, idx) => idx === data.video_index ? changed(v) : v)`. -/
def wpSetVideo (vs : List VideoEntry) (i : Nat) (f : VideoEntry → VideoEntry) :
    List VideoEntry :=
  mapWithIndex (fun idx v => if idx = i then f v else v) vs

/-- Update pattern of WorkflowExecutionDetails (part_004):
`const updated = [...prev]; if (updated[i]) \x7b mutate updated[i] \x7d`.
The element at an in-range index is an object, hence truthy; an
out-of-range read is `undefined`, so nothing happens. -/
def setAt (vs : List VideoEntry) (i : Nat) (f : VideoEntry → VideoEntry) :
    List VideoEntry :=
  match vs, i with
  | [], _ => []
  | v :: rest, 0 => f v :: rest
  | v :: rest, n + 1 => v :: setAt rest n f

/-- Effect of one stream event on the `videos` state of
`WorkflowProgress.jsx` (the `switch` of lines 24–85), viewing execution
`viewedId` (`parseInt(executionId)`).  Each case first checks
`data.execution_id === parseInt(executionId)`.  The terminal workflow
events only trigger a REST re-fetch (`loadData`) and do not touch the
array, and there is no `log` case. -/
def wpApplyMessage (viewedId : Nat) (videos : List VideoEntry) :
    WsMsg → List VideoEntry
  | .videosScanned e vs => if e = some viewedId then vs else videos
  | .videoStarted e i =>
      if e = some viewedId then
        wpSetVideo videos i (fun v => { v with status := some "processing" })
      else videos
  | .videoStageUpdate e i stage status =>
      if e = some viewedId then
        wpSetVideo videos i (fun v =>
          { v with
            currentStage := if status == "running" then some stage else v.currentStage
            stages := some (jsObjSet (v.stages.getD []) stage status) })
      else videos
  | .videoCompleted e i =>
      if e = some viewedId then
        wpSetVideo videos i (fun v =>
          { v with status := some "completed", currentStage := none })
      else videos
  | .videoFailed e i err =>
      if e = some viewedId then
        wpSetVideo videos i (fun v =>
          { v with status := some "failed", error := some err })
      else videos
  | _ => videos

/-- Execution record of WorkflowExecutionDetails, restricted to the fields
its stream handler can touch (`execution_log`; the rest of the REST
snapshot is carried along unchanged). -/
structure ExecRecord where
  executionLog : List String
  status : String
  errorMessage : Option String
  deriving DecidableEq, Repr

/-- Local state of WorkflowExecutionDetails: the REST snapshot (or `none`
before it loads) and the `scannedVideos` array. -/
structure ExecDetailsState where
  execution : Option ExecRecord
  scannedVideos : List VideoEntry
  deriving DecidableEq, Repr

/-- Handler `ws.onmessage` of WorkflowExecutionDetails (part_004 lines
28–87).  Unlike `wpApplyMessage`, no branch inspects
`message.data.execution_id`.  A `video_stage_update` sets `current_stage`
unconditionally and upserts `stages[stage]` only when the entry already has
a `stages` object; `videos_scanned` replaces the whole array
(`message.data.videos || []`); terminal events only re-fetch via REST. -/
def wedApplyMessage (st : ExecDetailsState) : WsMsg → ExecDetailsState
  | .log _ ts msg =>
      { st with
        execution := st.execution.map (fun ex =>
          { ex with
            executionLog :=
              ex.executionLog ++ ["[" ++ ts ++ "] " ++ msg] }) }
  | .videosScanned _ vs => { st with scannedVideos := vs }
  | .videoStarted _ i =>
      { st with
        scannedVideos := setAt st.scannedVideos i (fun v =>
          { v with status := some "processing" }) }
  | .videoStageUpdate _ i stage status =>
      { st with
        scannedVideos := setAt st.scannedVideos i (fun v =>
          { v with
            currentStage := some stage
            stages := v.stages.map (fun m => jsObjSet m stage status) }) }
  | .videoCompleted _ i =>
      { st with
        scannedVideos := setAt st.scannedVideos i (fun v =>
          { v with status := some "completed", currentStage := none }) }
  | .videoFailed _ i err =>
      { st with
        scannedVideos := setAt st.scannedVideos i (fun v =>
          { v with status := some "failed", error := some err }) }
  | .workflowCompleted _ => st
  | .workflowFailed _ => st
  | .otherType => st

/-- Effect of WorkflowProgress.jsx lines 24–27 (`const \x7b lastMessage \x7d
= useWebSocket()` followed by `if (!lastMessage) return`): the whole message
effect is inert when the destructured `lastMessage` is `undefined`. -/
def wpHandleLastMessage (lastMessage : Option WsMsg) (viewedId : Nat)
    (videos : List VideoEntry) : List VideoEntry :=
  match lastMessage with
  | none => videos
  | some m => wpApplyMessage viewedId videos m

/-- Concrete pending video used in counterexample states. -/
def demoVideoA : VideoEntry :=
  { title := "First"
    thumbnailUrl := none
    status := some "pending"
    currentStage := none
    stages := some [("download", "pending")]
    error := none }

/-- Concrete video with no `stages` object, as a snapshot element may lack
one. -/
def demoVideoB : VideoEntry :=
  { title := "Second"
    thumbnailUrl := none
    status := some "pending"
    currentStage := none
    stages := none
    error := none }

/-- Concrete video list of the execution being viewed. -/
def demoVideos : List VideoEntry := [demoVideoA, demoVideoB]

/-- Concrete video carried by an event of a different execution. -/
def foreignVideo : VideoEntry :=
  { title := "Foreign"
    thumbnailUrl := none
    status := some "pending"
    currentStage := none
    stages := some []
    error := none }

/-- Concrete WorkflowExecutionDetails state while viewing execution 42. -/
def demoDetailsState : ExecDetailsState :=
  { execution := some { executionLog := ["started"], status := "running", errorMessage := none }
    scannedVideos := demoVideos }

/-- Concrete progress entry already present in the hook's map. -/
def demoEntry : ProgressEntry :=
  { downloadId := some "other"
    progress := some 10
    status := some "queued"
    message := none
    timestamp := 1000 }

/-- Concrete progress map with one unrelated key. -/
def demoProgressMap : List (String × ProgressEntry) := [("other", demoEntry)]

/-- Concrete inbound frame carrying a download id. -/
def demoFrame : WsFrame :=
  { type := some "progress"
    downloadId := some "dl-1"
    progress := some 50
    status := some "downloading"
    message := some "half done" }

/-- Concrete inbound frame with no download id field. -/
def demoFrameNoId : WsFrame :=
  { type := some "progress"
    downloadId := none
    progress := some 5
    status := some "queued"
    message := none }

/-! ## Workflow graph editor state (`src/src/pages/WorkflowBuilder.jsx`)

Nodes and edges live in two React state arrays.  The operations the claims
range over are node creation (`onDrop` and the palette button, lines
223–249 and 450–464), `onConnect` (line 188, via `addEdge` of
`@xyflow/react`), and `handleDeleteNode` (lines 106–112).  After every
change to `edges` or to the number of nodes, the effect of lines 94–103
recomputes each node's `isStart` as `getIncomers(node, nodes, edges).length
=== 0`. -/

/-- Editor node: `id`, React Flow `type` (the stage kind), position, and the
`data` fields the builder maintains. -/
structure FlowNode where
  id : String
  kind : String
  position : Int × Int
  config : List (String × String)
  isActive : Bool
  isStart : Bool
  deriving DecidableEq, Repr

/-- Editor edge as `addEdge` creates it. -/
structure FlowEdge where
  id : String
  source : String
  target : String
  deriving DecidableEq, Repr

/-- The builder's graph state: the `nodes` and `edges` arrays. -/
structure GraphState where
  nodes : List FlowNode
  edges : List FlowEdge
  deriving DecidableEq, Repr

/-- Membership test for a node id (used where React Flow guarantees a
connection's endpoints are rendered nodes). -/
def GraphState.hasNode (s : GraphState) (i : String) : Bool :=
  s.nodes.any (fun n => n.id == i)

/-- Function `getIncomers(node, nodes, edges)` of `@xyflow/react`: the nodes
whose id is the source of some edge targeting `node`. -/
def getIncomers (n : FlowNode) (nodes : List FlowNode)
    (edges : List FlowEdge) : List FlowNode :=
  let incomersIds := (edges.filter (fun e => e.target == n.id)).map
    (fun e => e.source)
  nodes.filter (fun m => incomersIds.contains m.id)

/-- The `isStart` recomputation effect (WorkflowBuilder lines 94–103), run
after every change to the edges or to the node count. -/
def recomputeStart (s : GraphState) : GraphState :=
  { s with
    nodes := s.nodes.map (fun n =>
      { n with isStart := (getIncomers n s.nodes s.edges).length == 0 }) }

/-- Node object built by `onDrop` / the palette button: id is
`type-Date.now()`, config starts empty. -/
def mkFlowNode (kind : String) (now : Nat) (pos : Int × Int) : FlowNode :=
  { id := kind ++ "-" ++ toString now
    kind := kind
    position := pos
    config := []
    isActive := false
    isStart := false }

/-- Function `addEdge` of `@xyflow/react` on a connection with null handles:
return the list unchanged if an edge with this source and target already
exists, otherwise append a new edge with id `xy-edge__source-target`. -/
def addEdge (src tgt : String) (eds : List FlowEdge) : List FlowEdge :=
  if eds.any (fun e => e.source == src && e.target == tgt) then eds
  else eds ++ [{ id := "xy-edge__" ++ src ++ "-" ++ tgt
                 source := src
                 target := tgt }]

/-- Node insertion (`setNodes(nds => nds.concat(newNode))`) followed by the
`isStart` recomputation its node-count change triggers. -/
def addNode (s : GraphState) (kind : String) (now : Nat)
    (pos : Int × Int) : GraphState :=
  recomputeStart { s with nodes := s.nodes ++ [mkFlowNode kind now pos] }

/-- Handler `onConnect` followed by the recomputation its edge change
triggers. -/
def connect (s : GraphState) (src tgt : String) : GraphState :=
  recomputeStart { s with edges := addEdge src tgt s.edges }

/-- Handler `handleDeleteNode` (drop the node, drop every incident edge)
followed by the recomputation. -/
def deleteNode (s : GraphState) (nodeId : String) : GraphState :=
  recomputeStart
    { nodes := s.nodes.filter (fun n => n.id != nodeId)
      edges := s.edges.filter (fun e =>
        e.source != nodeId && e.target != nodeId) }

/-- Graph states the editor can reach from the initial empty canvas
(`initialNodes = []`, `initialEdges = []`) by the three operations.  React
Flow only fires `onConnect` between handles of rendered nodes, hence the
membership side conditions on `stepConnect`. -/
inductive ReachableGraph : GraphState → Prop where
  | empty : ReachableGraph { nodes := [], edges := [] }
  | stepAdd {s : GraphState} (kind : String) (now : Nat) (pos : Int × Int) :
      ReachableGraph s → ReachableGraph (addNode s kind now pos)
  | stepConnect {s : GraphState} (src tgt : String) :
      ReachableGraph s → s.hasNode src = true → s.hasNode tgt = true →
      ReachableGraph (connect s src tgt)
  | stepDelete {s : GraphState} (nodeId : String) :
      ReachableGraph s → ReachableGraph (deleteNode s nodeId)

/-- No dangling edges: both endpoints of every edge are present nodes. -/
def edgesValid (s : GraphState) : Prop :=
  ∀ e ∈ s.edges, s.hasNode e.source = true ∧ s.hasNode e.target = true

/-- Derived-start correctness: a node's `isStart` flag is set exactly when
no edge targets it. -/
def startFlagsCorrect (s : GraphState) : Prop :=
  ∀ n ∈ s.nodes, (n.isStart = true ↔ ¬∃ e ∈ s.edges, e.target = n.id)

/-- Concrete editor state: two nodes dropped at times 1 and 2 and connected. -/
def demoGraph : GraphState :=
  connect (addNode (addNode { nodes := [], edges := [] } "scan" 1 (0, 0))
    "download" 2 (0, 100)) "scan-1" "download-2"

/-! ## Reconnect lifecycle of `useWebSocket`

The hook's `connect` (lines 15–66) attaches `onopen`/`onmessage`/`onclose`
handlers to a fresh socket; `onclose` (lines 48–57) flips `isConnected` off
and schedules exactly one `setTimeout(connect, RECONNECT_DELAY)`; the effect
cleanup (lines 71–79) clears the pending timer and calls `ws.close()`.  The
handlers are never detached, and a WebSocket fires its `close` event also
when the close was initiated locally, so the cleanup's own `close()` queues
a close event that will still reach `onclose`.  We model this lifecycle as
a labelled transition system. -/

/-- Constant `RECONNECT_DELAY` (line 7). -/
def RECONNECT_DELAY : Nat := 3000

/-- Lifecycle state of one hook instance: connection flag, whether the
tracked reconnect timer is pending, whether the current socket is open,
whether a close event is queued for the still-attached `onclose` handler,
whether the consumer has unmounted, and how many reconnect timers have been
scheduled in total. -/
structure WSState where
  isConnected : Bool
  timerPending : Bool
  socketOpen : Bool
  closeQueued : Bool
  unmounted : Bool
  scheduled : Nat
  deriving DecidableEq, Repr

/-- Events of the lifecycle: the socket opens, the network drops the socket,
the queued close event reaches `onclose`, the reconnect timer fires
(running `connect`), and the effect cleanup runs on unmount. -/
inductive WSEvent where
  | openEvent
  | remoteClose
  | deliverClose
  | timerFires
  | teardown
  deriving DecidableEq, Repr

/-- One step of the lifecycle: `none` when the event cannot occur in the
state, otherwise the successor state paired with the delay of any timer the
step scheduled.  `deliverClose` is the body of `onclose`: it always
schedules exactly one reconnect timer with the fixed `RECONNECT_DELAY`,
whatever came before and whether or not the consumer is still mounted.
`teardown` is the cleanup: it cancels the tracked timer and closes the
socket, which queues a close event because the handler stays attached. -/
def wsStep (s : WSState) : WSEvent → Option (WSState × Option Nat)
  | .openEvent =>
      if s.socketOpen then some ({ s with isConnected := true }, none)
      else none
  | .remoteClose =>
      if s.socketOpen then
        some ({ s with socketOpen := false, closeQueued := true }, none)
      else none
  | .deliverClose =>
      if s.closeQueued then
        some ({ s with
                closeQueued := false
                isConnected := false
                timerPending := true
                scheduled := s.scheduled + 1 }, some RECONNECT_DELAY)
      else none
  | .timerFires =>
      if s.timerPending then
        some ({ s with timerPending := false, socketOpen := true }, none)
      else none
  | .teardown =>
      if s.unmounted then none
      else
        some ({ s with
                unmounted := true
                timerPending := false
                socketOpen := false
                closeQueued := s.closeQueued || s.socketOpen }, none)

/-- Concrete lifecycle state of a mounted hook with an open connection. -/
def wsMounted : WSState :=
  { isConnected := true
    timerPending := false
    socketOpen := true
    closeQueued := false
    unmounted := false
    scheduled := 0 }

/-- State right after the cleanup of `wsMounted`: timer cleared, socket
closed, but one close event queued by the cleanup's own `ws.close()`. -/
def wsAfterTeardown : WSState :=
  { isConnected := true
    timerPending := false
    socketOpen := false
    closeQueued := true
    unmounted := true
    scheduled := 0 }

/-- State after the queued close event reaches `onclose` post-unmount: a
reconnect timer is pending although the consumer is gone. -/
def wsAfterLateClose : WSState :=
  { isConnected := false
    timerPending := true
    socketOpen := false
    closeQueued := false
    unmounted := true
    scheduled := 1 }

/-- Mounted state that has already gone through many reconnect cycles and
has one more close event queued. -/
def wsManyCloses : WSState :=
  { isConnected := true
    timerPending := false
    socketOpen := false
    closeQueued := true
    unmounted := false
    scheduled := 41 }

/-- Helper: if the attempts at indices `idx, …, idx+k-1` fail and the attempt
at `idx+k` succeeds, with `k` within the remaining retry budget, the loop
returns that attempt's payload after one backoff per failure. -/
theorem requestLoop_ok (b : Nat → FetchOutcome) :
    ∀ (k idx remaining : Nat), k ≤ remaining →
    (∀ i, i < k → (b (idx + i)).isOkOutcome = false) →
    (b (idx + k)).isOkOutcome = true →
    requestLoop b idx remaining =
      (.ok ((b (idx + k)).payloadOf), (List.range k).map fun i => backoffDelay (idx + i)) := by
  intro k
  induction k with
  | zero =>
      intro idx remaining _ _ hok
      have h0 : attemptResult (b idx) = .ok ((b (idx + 0)).payloadOf) := by
        simp only [Nat.add_zero] at hok ⊢
        unfold FetchOutcome.isOkOutcome at hok
        unfold FetchOutcome.payloadOf
        cases h : attemptResult (b idx) with
        | ok v => simp [h]
        | error e => simp [h] at hok
      cases remaining with
      | zero => simp [requestLoop, h0]
      | succ r => simp [requestLoop, h0]
  | succ k ih =>
      intro idx remaining hk hfail hok
      obtain ⟨r, rfl⟩ : ∃ r, remaining = r + 1 := by
        cases remaining with
        | zero => omega
        | succ r => exact ⟨r, rfl⟩
      have h0 : ∃ e, attemptResult (b idx) = .error e := by
        have := hfail 0 (Nat.succ_pos k)
        simp only [Nat.add_zero] at this
        unfold FetchOutcome.isOkOutcome at this
        cases h : attemptResult (b idx) with
        | ok v => simp [h] at this
        | error e => exact ⟨e, rfl⟩
      obtain ⟨e, he⟩ := h0
      have hrest := ih (idx + 1) r (by omega)
        (fun i hi => by
          have := hfail (i + 1) (by omega)
          simpa [Nat.add_assoc, Nat.add_comm 1 i] using this)
        (by
          have : idx + 1 + k = idx + (k + 1) := by omega
          rw [this]; exact hok)
      simp only [requestLoop, he]
      rw [hrest]
      simp only [Prod.mk.injEq]
      constructor
      · have h1 : idx + 1 + k = idx + (k + 1) := by omega
        rw [h1]
      · rw [List.range_succ_eq_map, List.map_cons, List.map_map]
        simp only [List.cons.injEq]
        constructor
        · simp [backoffDelay]
        · apply List.map_congr_left
          intro i _
          simp only [Function.comp]
          congr 1
          omega

/-- Helper: if the attempts at indices `idx, …, idx+remaining` all fail, the
loop throws the last attempt's error after one backoff per non-final
failure. -/
theorem requestLoop_exhausted (b : Nat → FetchOutcome) :
    ∀ (remaining idx : Nat),
    (∀ i, i ≤ remaining → (b (idx + i)).isOkOutcome = false) →
    requestLoop b idx remaining =
      (.error ((b (idx + remaining)).errorOf),
        (List.range remaining).map fun i => backoffDelay (idx + i)) := by
  intro remaining
  induction remaining with
  | zero =>
      intro idx hfail
      have := hfail 0 (Nat.le_refl 0)
      simp only [Nat.add_zero] at this ⊢
      unfold FetchOutcome.isOkOutcome at this
      unfold FetchOutcome.errorOf
      cases h : attemptResult (b idx) with
      | ok v => simp [h] at this
      | error e => simp [requestLoop, h]
  | succ r ih =>
      intro idx hfail
      have h0 : ∃ e, attemptResult (b idx) = .error e := by
        have := hfail 0 (Nat.zero_le _)
        simp only [Nat.add_zero] at this
        unfold FetchOutcome.isOkOutcome at this
        cases h : attemptResult (b idx) with
        | ok v => simp [h] at this
        | error e => exact ⟨e, rfl⟩
      obtain ⟨e, he⟩ := h0
      have hrest := ih (idx + 1)
        (fun i hi => by
          have := hfail (i + 1) (by omega)
          simpa [Nat.add_assoc, Nat.add_comm 1 i] using this)
      simp only [requestLoop, he]
      rw [hrest]
      simp only [Prod.mk.injEq]
      constructor
      · have h1 : idx + 1 + r = idx + (r + 1) := by omega
        rw [h1]
      · rw [List.range_succ_eq_map, List.map_cons, List.map_map]
        simp only [List.cons.injEq]
        constructor
        · simp [backoffDelay]
        · apply List.map_congr_left
          intro i _
          simp only [Function.comp]
          congr 1
          omega

/-- C6: a request failing with 5xx or network errors is retried up to the
configured `retries` count, sleeping `1000 * 2 ^ (attempt - 1)` milliseconds
before each retry; if the attempt with index `k ≤ retries` is the first to
succeed, its payload is returned after the delays `1000·2⁰, …, 1000·2^(k-1)`,
and if every allowed attempt fails, the last attempt's error is thrown after
the delays `1000·2⁰, …, 1000·2^(retries-1)`. -/
theorem request_retries_with_exponential_backoff (b : Nat → FetchOutcome)
    (retries k : Nat) :
    (k ≤ retries → (∀ i, i < k → (b i).isOkOutcome = false) →
      (b k).isOkOutcome = true →
      request retries b = (.ok ((b k).payloadOf), backoffs k)) ∧
    ((∀ i, i ≤ retries → (b i).isOkOutcome = false) →
      request retries b = (.error ((b retries).errorOf), backoffs retries)) := by
  constructor
  · intro hk hfail hok
    unfold request backoffs
    rw [requestLoop_ok b k 0 retries hk
      (fun i hi => by simpa using hfail i hi) (by simpa using hok)]
    simp
  · intro hfail
    unfold request backoffs
    rw [requestLoop_exhausted b retries 0
      (fun i hi => by simpa using hfail i hi)]
    simp

/-- Witness for C6 at the spec's concrete scenario: with `retries = 2`, two
503 responses followed by a success return the payload after exactly the two
backoff delays 1000 ms and 2000 ms; and an always-503 network with
`retries = 1` ends with the 503 error after one 1000 ms delay. -/
theorem request_retries_with_exponential_backoff_witness :
    request 2 behaviour503TwiceThenOk = (.ok "payload", [1000, 2000]) ∧
    request 1 behaviourAlways503 =
      (.error "HTTP 503: Service Unavailable", [1000]) := by
  constructor
  · have h := (request_retries_with_exponential_backoff behaviour503TwiceThenOk 2 2).1
      (by decide) (by decide) (by decide)
    rw [h]
    rfl
  · have h := (request_retries_with_exponential_backoff behaviourAlways503 1 1).2
      (by decide)
    rw [h]
    rfl

/-- C3 (refuting theorem): contrary to the comment `Don't retry on 4xx
errors (client errors)` in `APIClient.request`, a 4xx response thrown inside
the `try` block is caught by the same `catch` as every other error, so with
`retries = 1` a constant-404 endpoint is fetched twice with a 1000 ms
backoff in between; the error finally thrown does carry the server-supplied
`detail` message.  Only the default `retries = 0` fails immediately. -/
theorem request_4xx_is_retried :
    request 0 behaviourAlways404 = (.error "not found", []) ∧
    request 1 behaviourAlways404 = (.error "not found", [1000]) := by
  constructor
  · rfl
  · rfl

/-- C4 (refuting theorem): the result and the elapsed time of
`APIClient.request` are independent of the `timeout` option (the
abort-controller code is commented out), and in particular a fetch lasting
60000 ms under the default 10000 ms timeout is awaited to completion and
succeeds rather than failing with a timeout error. -/
theorem request_timeout_never_fires :
    (∀ t₁ t₂ retries b, requestWithTimeout t₁ retries b =
      requestWithTimeout t₂ retries b) ∧
    requestWithTimeout (some 10000) 0 (fun _ => (.ok "payload", 60000)) =
      (.ok "payload", 60000) := by
  constructor
  · intro t₁ t₂ retries b
    rfl
  · rfl

/-- Helper: the overwrite map of a spread-update does not change where the
key predicate matches. -/
theorem overwrite_preserves_pred {α : Type} (k k₂ : String) (v : α) :
    ((fun p : String × α => p.1 == k₂) ∘
      (fun p : String × α => if p.1 == k then (k, v) else p)) =
      fun p : String × α => p.1 == k₂ := by
  funext p
  simp only [Function.comp]
  by_cases hp : p.1 = k
  · by_cases hk : k = k₂ <;> simp [hp, hk]
  · simp [hp]

/-- Helper: in the overwrite branch of a spread-update, the written key is
found with the new value. -/
theorem find_overwrite_self {α : Type} (k : String) (v : α)
    (m : List (String × α)) (h : m.any (fun p => p.1 == k) = true) :
    (m.map (fun p => if p.1 == k then (k, v) else p)).find?
        (fun p => p.1 == k) = some (k, v) := by
  rw [List.find?_map, overwrite_preserves_pred k k v]
  obtain ⟨p₀, hmem, hp₀⟩ := List.any_eq_true.mp h
  have hsome : (m.find? (fun p => p.1 == k)).isSome := by
    rw [List.find?_isSome]
    exact ⟨p₀, hmem, hp₀⟩
  obtain ⟨q, hq⟩ := Option.isSome_iff_exists.mp hsome
  have hqk : q.1 = k := by simpa using List.find?_some hq
  rw [hq]
  simp [Option.map_some, hqk]

/-- Helper: in the append branch of a spread-update, the written key is
found with the new value. -/
theorem find_append_self {α : Type} (k : String) (v : α)
    (m : List (String × α)) (h : ∀ p ∈ m, ¬p.1 = k) :
    (m ++ [(k, v)]).find? (fun p => p.1 == k) = some (k, v) := by
  rw [List.find?_append]
  have hm : m.find? (fun p => p.1 == k) = none := by
    rw [List.find?_eq_none]
    intro p hp
    simp [h p hp]
  simp [hm, List.find?]

/-- Helper: the overwrite branch of a spread-update does not disturb the
search for a different key. -/
theorem find_overwrite_other {α : Type} (k k₂ : String) (v : α)
    (hne : ¬k₂ = k) (m : List (String × α)) :
    (m.map (fun p => if p.1 == k then (k, v) else p)).find?
        (fun p => p.1 == k₂) = m.find? (fun p => p.1 == k₂) := by
  rw [List.find?_map, overwrite_preserves_pred k k₂ v]
  cases hq : m.find? (fun p => p.1 == k₂) with
  | none => simp
  | some q =>
      have hqk : q.1 = k₂ := by simpa using List.find?_some hq
      have hqne : ¬q.1 = k := by rw [hqk]; exact hne
      simp [Option.map_some, hqne]

/-- Helper: the append branch of a spread-update does not disturb the search
for a different key. -/
theorem find_append_other {α : Type} (k k₂ : String) (v : α)
    (hne : ¬k₂ = k) (m : List (String × α)) :
    (m ++ [(k, v)]).find? (fun p => p.1 == k₂) =
      m.find? (fun p => p.1 == k₂) := by
  rw [List.find?_append]
  have hkk : (k == k₂) = false := by
    simp
    exact fun hh => hne hh.symm
  have hsingle : List.find? (fun p : String × α => p.1 == k₂) [(k, v)] = none := by
    simp only [List.find?, hkk]
  rw [hsingle, Option.or_none]

/-- Helper: reading back the key just written by a spread-update yields the
written value. -/
theorem jsObjGet_set_self {α : Type} (m : List (String × α)) (k : String)
    (v : α) : jsObjGet (jsObjSet m k v) k = some v := by
  unfold jsObjSet jsObjGet
  by_cases h : m.any (fun p => p.1 == k) = true
  · rw [if_pos h, find_overwrite_self k v m h]
    rfl
  · have hnone : ∀ p ∈ m, ¬p.1 = k := by
      intro p hp hpk
      exact h (List.any_eq_true.mpr ⟨p, hp, by simp [hpk]⟩)
    rw [if_neg h, find_append_self k v m hnone]
    rfl

/-- Helper: a spread-update of one key leaves the read of every other key
unchanged. -/
theorem jsObjGet_set_other {α : Type} (m : List (String × α)) (k k₂ : String)
    (v : α) (hne : ¬k₂ = k) : jsObjGet (jsObjSet m k v) k₂ = jsObjGet m k₂ := by
  unfold jsObjSet jsObjGet
  by_cases h : m.any (fun p => p.1 == k) = true
  · rw [if_pos h, find_overwrite_other k k₂ v hne m]
  · rw [if_neg h, find_append_other k k₂ v hne m]

/-- Helper: mapping an index-guarded identity over a window strictly above
the guard index changes nothing. -/
theorem mapFrom_guard_below (f : VideoEntry → VideoEntry) (i : Nat) :
    ∀ (vs : List VideoEntry) (start : Nat), i < start →
    mapFrom (fun idx v => if idx = i then f v else v) start vs = vs := by
  intro vs
  induction vs with
  | nil => intro start _; rfl
  | cons v rest ih =>
      intro start hlt
      have hne : ¬start = i := by omega
      simp only [mapFrom, hne, if_false]
      rw [ih (start + 1) (by omega)]

/-- Helper: the indexed-map update of WorkflowProgress equals the guarded
in-place update of WorkflowExecutionDetails. -/
theorem wpSetVideo_eq_setAt (vs : List VideoEntry) (i : Nat)
    (f : VideoEntry → VideoEntry) : wpSetVideo vs i f = setAt vs i f := by
  unfold wpSetVideo mapWithIndex
  have general : ∀ (vs : List VideoEntry) (start i : Nat),
      mapFrom (fun idx v => if idx = start + i then f v else v) start vs =
        setAt vs i f := by
    intro vs
    induction vs with
    | nil => intro start i; rfl
    | cons v rest ih =>
        intro start i
        cases i with
        | zero =>
            simp only [mapFrom, Nat.add_zero, if_true, setAt]
            rw [mapFrom_guard_below f start rest (start + 1) (by omega)]
        | succ n =>
            have hne : ¬start = start + (n + 1) := by omega
            simp only [mapFrom, hne, if_false, setAt]
            have harith : start + (n + 1) = (start + 1) + n := by omega
            rw [harith]
            exact congrArg _ (ih (start + 1) n)
  have h := general vs 0 i
  simpa using h

/-- Helper: the guarded in-place update at an out-of-range index is the
identity. -/
theorem setAt_out_of_range (f : VideoEntry → VideoEntry) :
    ∀ (vs : List VideoEntry) (i : Nat), vs.length ≤ i → setAt vs i f = vs := by
  intro vs
  induction vs with
  | nil => intro i _; rfl
  | cons v rest ih =>
      intro i hlen
      cases i with
      | zero => simp at hlen
      | succ n =>
          simp only [setAt]
          rw [ih n (by simpa [Nat.succ_le_succ_iff] using hlen)]

/-- Helper: the guarded in-place update rewrites exactly the targeted
position. -/
theorem setAt_get? (f : VideoEntry → VideoEntry) :
    ∀ (vs : List VideoEntry) (i j : Nat),
    (setAt vs i f).get? j =
      if j = i then (vs.get? i).map f else vs.get? j := by
  intro vs
  induction vs with
  | nil => intro i j; simp [setAt, List.get?]
  | cons v rest ih =>
      intro i j
      cases i with
      | zero =>
          cases j with
          | zero => simp [setAt, List.get?]
          | succ m => simp [setAt, List.get?]
      | succ n =>
          cases j with
          | zero => simp [setAt, List.get?]
          | succ m =>
              simp only [setAt, List.get?]
              rw [ih n m]
              by_cases hjm : m = n
              · simp [hjm]
              · have : ¬(m + 1 = n + 1) := by omega
                simp [hjm, this]

/-- C10: for every JSON-parsable inbound frame, whatever its `type` field,
the hook's message handler upserts the progress map under the key given by
the frame's `download_id` — storing the frame's fields plus a receipt
timestamp, overwriting any prior entry for that key, leaving every other key
unchanged — and a frame with no `download_id` is stored under the key
`undefined` rather than being ignored. -/
theorem ws_onmessage_upserts_by_download_id
    (prev : List (String × ProgressEntry)) (frame : WsFrame) (now : Nat) :
    jsObjGet (wsOnMessage prev frame now) (jsKey frame.downloadId) =
      some { downloadId := frame.downloadId, progress := frame.progress,
             status := frame.status, message := frame.message,
             timestamp := now } ∧
    (∀ k, ¬k = jsKey frame.downloadId →
      jsObjGet (wsOnMessage prev frame now) k = jsObjGet prev k) ∧
    (frame.downloadId = none → jsKey frame.downloadId = "undefined") := by
  refine ⟨?_, ?_, ?_⟩
  · exact jsObjGet_set_self prev (jsKey frame.downloadId) _
  · intro k hk
    exact jsObjGet_set_other prev (jsKey frame.downloadId) k _ hk
  · intro h
    rw [h]
    rfl

/-- Witness for C10: a frame for `dl-1` lands under key `dl-1` and leaves
the unrelated key `other` untouched, and a frame with no `download_id` goes
under the key `undefined`. -/
theorem ws_onmessage_upserts_by_download_id_witness :
    jsObjGet (wsOnMessage demoProgressMap demoFrame 1234) "dl-1" =
      some { downloadId := some "dl-1", progress := some 50,
             status := some "downloading", message := some "half done",
             timestamp := 1234 } ∧
    jsObjGet (wsOnMessage demoProgressMap demoFrame 1234) "other" =
      jsObjGet demoProgressMap "other" ∧
    jsKey demoFrameNoId.downloadId = "undefined" := by
  obtain ⟨h1, h2, _⟩ :=
    ws_onmessage_upserts_by_download_id demoProgressMap demoFrame 1234
  obtain ⟨_, _, g3⟩ :=
    ws_onmessage_upserts_by_download_id demoProgressMap demoFrameNoId 1234
  exact ⟨h1, h2 "other" (by decide), g3 rfl⟩

/-- C1 (refuting theorem): the object `useWebSocket` returns has exactly the
fields `isConnected`, `progress`, `getProgress`, `clearProgress` — there is
no `lastMessage` field — so the `const \x7b lastMessage \x7d =
useWebSocket()` destructuring in WorkflowProgress yields `undefined` and its
message-dispatch effect is permanently inert. -/
theorem useWebSocket_lacks_lastMessage :
    useWebSocketReturnFields.contains "lastMessage" = false ∧
    (∀ (viewedId : Nat) (videos : List VideoEntry),
      wpHandleLastMessage none viewedId videos = videos) :=
  ⟨by decide, fun _ _ => rfl⟩

/-- C2 (refuting theorem): WorkflowProgress drops a `videos_scanned` event
for execution 99 while viewing execution 42, but WorkflowExecutionDetails —
whose handler never reads `data.execution_id` — replaces its whole
`scannedVideos` array with the foreign execution's videos. -/
theorem execution_filter_missing_in_details :
    wpApplyMessage 42 demoVideos (.videosScanned (some 99) [foreignVideo]) =
      demoVideos ∧
    wedApplyMessage demoDetailsState
        (.videosScanned (some 99) [foreignVideo]) ≠ demoDetailsState ∧
    (wedApplyMessage demoDetailsState
        (.videosScanned (some 99) [foreignVideo])).scannedVideos =
      [foreignVideo] := by
  refine ⟨?_, ?_, ?_⟩ <;> decide

/-- C9: every per-video event (`video_started`, `video_stage_update`,
`video_completed`, `video_failed`) whose index is at or beyond the end of
the video array leaves the array unchanged — a silent no-op — in both
WorkflowProgress and WorkflowExecutionDetails. -/
theorem out_of_range_video_events_noop (viewedId : Nat)
    (videos : List VideoEntry) (st : ExecDetailsState) (e : Option Nat)
    (i : Nat) (stage status err : String)
    (hwp : videos.length ≤ i) (hwed : st.scannedVideos.length ≤ i) :
    wpApplyMessage viewedId videos (.videoStarted e i) = videos ∧
    wpApplyMessage viewedId videos (.videoStageUpdate e i stage status) = videos ∧
    wpApplyMessage viewedId videos (.videoCompleted e i) = videos ∧
    wpApplyMessage viewedId videos (.videoFailed e i err) = videos ∧
    wedApplyMessage st (.videoStarted e i) = st ∧
    wedApplyMessage st (.videoStageUpdate e i stage status) = st ∧
    wedApplyMessage st (.videoCompleted e i) = st ∧
    wedApplyMessage st (.videoFailed e i err) = st := by
  have hwpset : ∀ f, wpSetVideo videos i f = videos := fun f => by
    rw [wpSetVideo_eq_setAt]
    exact setAt_out_of_range f videos i hwp
  have hwedset : ∀ f, setAt st.scannedVideos i f = st.scannedVideos :=
    fun f => setAt_out_of_range f st.scannedVideos i hwed
  refine ⟨?_, ?_, ?_, ?_, ?_, ?_, ?_, ?_⟩
  · by_cases he : e = some viewedId <;> simp [wpApplyMessage, he, hwpset]
  · by_cases he : e = some viewedId <;> simp [wpApplyMessage, he, hwpset]
  · by_cases he : e = some viewedId <;> simp [wpApplyMessage, he, hwpset]
  · by_cases he : e = some viewedId <;> simp [wpApplyMessage, he, hwpset]
  · simp [wedApplyMessage, hwedset]
  · simp [wedApplyMessage, hwedset]
  · simp [wedApplyMessage, hwedset]
  · simp [wedApplyMessage, hwedset]

/-- Witness for C9: index 5 on the two-element demo array is a no-op for all
four per-video events in both components. -/
theorem out_of_range_video_events_noop_witness :
    wpApplyMessage 42 demoVideos (.videoStarted (some 42) 5) = demoVideos ∧
    wpApplyMessage 42 demoVideos
        (.videoStageUpdate (some 42) 5 "download" "running") = demoVideos ∧
    wpApplyMessage 42 demoVideos (.videoCompleted (some 42) 5) = demoVideos ∧
    wpApplyMessage 42 demoVideos (.videoFailed (some 42) 5 "boom") = demoVideos ∧
    wedApplyMessage demoDetailsState (.videoStarted (some 42) 5) =
      demoDetailsState ∧
    wedApplyMessage demoDetailsState
        (.videoStageUpdate (some 42) 5 "download" "running") =
      demoDetailsState ∧
    wedApplyMessage demoDetailsState (.videoCompleted (some 42) 5) =
      demoDetailsState ∧
    wedApplyMessage demoDetailsState (.videoFailed (some 42) 5 "boom") =
      demoDetailsState :=
  out_of_range_video_events_noop 42 demoVideos demoDetailsState (some 42) 5
    "download" "running" "boom" (by decide) (by decide)

/-- C5 (counterexample): in WorkflowExecutionDetails, a `video_stage_update`
with status `completed` on the first demo video still overwrites
`current_stage` (the claim says it is left unchanged unless the status is
`running`), and one with status `running` on a video that has no `stages`
object inserts nothing into `stages` (the claim says the key is always
inserted). -/
theorem stage_update_claim_fails_in_details :
    ((wedApplyMessage demoDetailsState
        (.videoStageUpdate (some 42) 0 "download" "completed")).scannedVideos.get? 0).map
      VideoEntry.currentStage = some (some "download") ∧
    demoVideoA.currentStage = none ∧
    ((wedApplyMessage demoDetailsState
        (.videoStageUpdate (some 42) 1 "upload" "running")).scannedVideos.get? 1).map
      VideoEntry.stages = some none := by
  refine ⟨?_, ?_, ?_⟩ <;> decide

/-- C5 (amended): on an in-range index of the viewed execution, a
`video_stage_update(index, stage, status)` behaves as claimed in
WorkflowProgress — `currentStage := stage` exactly when the status is
`running`, and `stages[stage] := status` always, inserting the key even when
the entry had no stages object — while in WorkflowExecutionDetails
`current_stage := stage` unconditionally and `stages[stage] := status` only
when the entry already has a stages object; in both components every other
index is untouched. -/
theorem video_stage_update_semantics (viewedId i : Nat)
    (videos : List VideoEntry) (st : ExecDetailsState)
    (stage status : String) (v w : VideoEntry)
    (hv : videos.get? i = some v) (hw : st.scannedVideos.get? i = some w) :
    (wpApplyMessage viewedId videos
        (.videoStageUpdate (some viewedId) i stage status)).get? i =
      some { v with
             currentStage :=
               if status == "running" then some stage else v.currentStage
             stages := some (jsObjSet (v.stages.getD []) stage status) } ∧
    (∀ j, ¬j = i →
      (wpApplyMessage viewedId videos
          (.videoStageUpdate (some viewedId) i stage status)).get? j =
        videos.get? j) ∧
    (wedApplyMessage st
        (.videoStageUpdate (some viewedId) i stage status)).scannedVideos.get? i =
      some { w with
             currentStage := some stage
             stages := w.stages.map (fun m => jsObjSet m stage status) } ∧
    (∀ j, ¬j = i →
      (wedApplyMessage st
          (.videoStageUpdate (some viewedId) i stage status)).scannedVideos.get? j =
        st.scannedVideos.get? j) := by
  have hwp : wpApplyMessage viewedId videos
      (.videoStageUpdate (some viewedId) i stage status) =
      setAt videos i (fun v =>
        { v with
          currentStage :=
            if status == "running" then some stage else v.currentStage
          stages := some (jsObjSet (v.stages.getD []) stage status) }) := by
    simp [wpApplyMessage, wpSetVideo_eq_setAt]
  have hwed : (wedApplyMessage st
      (.videoStageUpdate (some viewedId) i stage status)).scannedVideos =
      setAt st.scannedVideos i (fun v =>
        { v with
          currentStage := some stage
          stages := v.stages.map (fun m => jsObjSet m stage status) }) := by
    simp [wedApplyMessage]
  refine ⟨?_, ?_, ?_, ?_⟩
  · rw [hwp, setAt_get?, if_pos rfl, hv]
    rfl
  · intro j hj
    rw [hwp, setAt_get?, if_neg hj]
  · rw [hwed, setAt_get?, if_pos rfl, hw]
    rfl
  · intro j hj
    rw [hwed, setAt_get?, if_neg hj]

/-- Witness for C5 (amended) at a concrete running-stage update on the first
demo video: both components move `currentStage` to `download` and upsert
`stages.download = running`. -/
theorem video_stage_update_semantics_witness :
    (wpApplyMessage 42 demoVideos
        (.videoStageUpdate (some 42) 0 "download" "running")).get? 0 =
      some { demoVideoA with
             currentStage := some "download"
             stages := some [("download", "running")] } ∧
    (wedApplyMessage demoDetailsState
        (.videoStageUpdate (some 42) 0 "download" "running")).scannedVideos.get? 0 =
      some { demoVideoA with
             currentStage := some "download"
             stages := some [("download", "running")] } := by
  obtain ⟨h1, _, h3, _⟩ :=
    video_stage_update_semantics 42 0 demoVideos demoDetailsState
      "download" "running" demoVideoA demoVideoA (by decide) (by decide)
  constructor
  · rw [h1]
    decide
  · rw [h3]
    decide

/-- Helper: node-id membership as an existential. -/
theorem hasNode_iff (s : GraphState) (i : String) :
    s.hasNode i = true ↔ ∃ n ∈ s.nodes, n.id = i := by
  simp [GraphState.hasNode, List.any_eq_true]

/-- Helper: the recomputation leaves the edge list untouched. -/
theorem recompute_edges (s : GraphState) :
    (recomputeStart s).edges = s.edges := rfl

/-- Helper: the recomputation changes no node id. -/
theorem recompute_hasNode (s : GraphState) (i : String) :
    (recomputeStart s).hasNode i = s.hasNode i := by
  simp only [recomputeStart, GraphState.hasNode, List.any_map]
  rfl

/-- Helper: the recomputation preserves edge validity. -/
theorem edgesValid_recompute (s : GraphState) (h : edgesValid s) :
    edgesValid (recomputeStart s) := by
  intro e he
  obtain ⟨h1, h2⟩ := h e he
  rw [recompute_hasNode, recompute_hasNode]
  exact ⟨h1, h2⟩

/-- Helper: on a graph with no dangling edges, the recomputation makes every
`isStart` flag agree with `no edge targets this node`. -/
theorem startFlags_recompute (s : GraphState) (hval : edgesValid s) :
    startFlagsCorrect (recomputeStart s) := by
  intro n' hn'
  simp only [recomputeStart, List.mem_map] at hn'
  obtain ⟨n, hn, rfl⟩ := hn'
  constructor
  · intro hflag hex
    obtain ⟨e, he, htgt⟩ := hex
    obtain ⟨m, hm, hmid⟩ := (hasNode_iff s e.source).mp (hval e he).1
    have hmem : m ∈ getIncomers n s.nodes s.edges := by
      unfold getIncomers
      refine List.mem_filter.mpr ⟨hm, ?_⟩
      have hidmem : m.id ∈ (s.edges.filter (fun e => e.target == n.id)).map
          (fun e => e.source) := by
        refine List.mem_map.mpr ⟨e, ?_, hmid.symm⟩
        refine List.mem_filter.mpr ⟨he, ?_⟩
        exact beq_iff_eq.mpr htgt
      exact List.elem_iff.mpr hidmem
    have hlen : (getIncomers n s.nodes s.edges).length = 0 := by
      simpa using hflag
    rw [List.length_eq_zero] at hlen
    rw [hlen] at hmem
    exact absurd hmem (List.not_mem_nil m)
  · intro hnone
    have hempty : getIncomers n s.nodes s.edges = [] := by
      unfold getIncomers
      rw [List.filter_eq_nil_iff]
      intro m hm hcontains
      have hidmem : m.id ∈ (s.edges.filter (fun e => e.target == n.id)).map
          (fun e => e.source) := List.elem_iff.mp hcontains
      obtain ⟨e, hef, hes⟩ := List.mem_map.mp hidmem
      obtain ⟨he, het⟩ := List.mem_filter.mp hef
      exact hnone ⟨e, he, beq_iff_eq.mp het⟩
    show ((getIncomers n s.nodes s.edges).length == 0) = true
    rw [hempty]
    rfl

/-- C8: every editor graph state reachable by any sequence of node adds
(`onDrop` / palette), connects and node deletions has no dangling edges
(deletion cascades edge removal), and after the recomputation that follows
every change each node's `isStart` flag is set exactly when no edge targets
it. -/
theorem graph_editor_invariants (s : GraphState) (h : ReachableGraph s) :
    edgesValid s ∧ startFlagsCorrect s := by
  induction h with
  | empty =>
      constructor
      · intro e he
        cases he
      · intro n hn
        cases hn
  | @stepAdd s kind now pos _ ih =>
      have hval0 : edgesValid
          { s with nodes := s.nodes ++ [mkFlowNode kind now pos] } := by
        intro e he
        obtain ⟨h1, h2⟩ := ih.1 e he
        constructor
        · show (s.nodes ++ [mkFlowNode kind now pos]).any
            (fun n => n.id == e.source) = true
          rw [List.any_append]
          rw [show s.nodes.any (fun n => n.id == e.source) = true from h1]
          rfl
        · show (s.nodes ++ [mkFlowNode kind now pos]).any
            (fun n => n.id == e.target) = true
          rw [List.any_append]
          rw [show s.nodes.any (fun n => n.id == e.target) = true from h2]
          rfl
      exact ⟨edgesValid_recompute _ hval0, startFlags_recompute _ hval0⟩
  | @stepConnect s src tgt _ hsrc htgt ih =>
      have hval0 : edgesValid { s with edges := addEdge src tgt s.edges } := by
        intro e he
        have he2 : e ∈ addEdge src tgt s.edges := he
        unfold addEdge at he2
        by_cases hdup :
            s.edges.any (fun e => e.source == src && e.target == tgt) = true
        · rw [if_pos hdup] at he2
          exact ih.1 e he2
        · rw [if_neg hdup] at he2
          rcases List.mem_append.mp he2 with hin | hnew
          · exact ih.1 e hin
          · rw [List.mem_singleton.mp hnew]
            exact ⟨hsrc, htgt⟩
      exact ⟨edgesValid_recompute _ hval0, startFlags_recompute _ hval0⟩
  | @stepDelete s nodeId _ ih =>
      have hval0 : edgesValid
          { nodes := s.nodes.filter (fun n => n.id != nodeId)
            edges := s.edges.filter (fun e =>
              e.source != nodeId && e.target != nodeId) } := by
        intro e he
        obtain ⟨hee, hcond⟩ := List.mem_filter.mp he
        obtain ⟨h1, h2⟩ := ih.1 e hee
        have hsplit := (Bool.and_eq_true _ _).mp hcond
        have hsrcne : ¬e.source = nodeId := by
          have := hsplit.1
          simpa using this
        have htgtne : ¬e.target = nodeId := by
          have := hsplit.2
          simpa using this
        constructor
        · apply (hasNode_iff _ e.source).mpr
          obtain ⟨m, hm, hmid⟩ := (hasNode_iff s e.source).mp h1
          refine ⟨m, List.mem_filter.mpr ⟨hm, ?_⟩, hmid⟩
          simp [hmid, hsrcne]
        · apply (hasNode_iff _ e.target).mpr
          obtain ⟨m, hm, hmid⟩ := (hasNode_iff s e.target).mp h2
          refine ⟨m, List.mem_filter.mpr ⟨hm, ?_⟩, hmid⟩
          simp [hmid, htgtne]
      exact ⟨edgesValid_recompute _ hval0, startFlags_recompute _ hval0⟩

/-- Witness for C8: the two-node demo graph reached by add, add, connect
satisfies both invariants. -/
theorem graph_editor_invariants_witness :
    edgesValid demoGraph ∧ startFlagsCorrect demoGraph :=
  graph_editor_invariants demoGraph
    (ReachableGraph.stepConnect "scan-1" "download-2"
      (ReachableGraph.stepAdd "download" 2 (0, 100)
        (ReachableGraph.stepAdd "scan" 1 (0, 0) ReachableGraph.empty))
      (by decide) (by decide))

/-- C7 (refuting theorem): the cleanup of `useWebSocket` does cancel the
tracked reconnect timer and close the socket, and every close delivered to
`onclose` schedules exactly one reconnect with the fixed 3000 ms delay
regardless of how many came before (no backoff, no cap); but the cleanup's
own `ws.close()` queues a close event for the still-attached `onclose`
handler, so right after teardown that event still schedules a reconnect —
contradicting the claim that no further reconnect is scheduled after
teardown. -/
theorem reconnect_scheduled_after_teardown :
    wsStep wsMounted .teardown = some (wsAfterTeardown, none) ∧
    wsAfterTeardown.unmounted = true ∧
    wsAfterTeardown.timerPending = false ∧
    wsAfterTeardown.socketOpen = false ∧
    wsStep wsAfterTeardown .deliverClose =
      some (wsAfterLateClose, some RECONNECT_DELAY) ∧
    wsAfterLateClose.scheduled = wsAfterTeardown.scheduled + 1 ∧
    wsAfterLateClose.timerPending = true ∧
    wsStep wsManyCloses .deliverClose =
      some ({ wsManyCloses with
              isConnected := false
              closeQueued := false
              timerPending := true
              scheduled := 42 }, some RECONNECT_DELAY) ∧
    RECONNECT_DELAY = 3000 :=
  ⟨rfl, rfl, rfl, rfl, rfl, rfl, rfl, rfl, rfl⟩

end VFlow
